import Mathlib

/-!
Shallow embedding of the NodeJS builder (build/nodejs.go) of fossa-cli:
toolchain discovery (Initialize), install execution (Build), concurrent
manifest aggregation (Analyze), and the structural build check (IsBuilt),
together with theorems checking the specification's claims about them.
-/

namespace Fossa

/-- Dependency identity parsed from a package.json manifest (NodeModule in the
source); the zero value has both fields empty. -/
structure NodeModule where
  Name : String
  Version : String
deriving DecidableEq, Inhabited, Repr

/-- Fetcher always returns npm for NodeModule. -/
def NodeModule.Fetcher (_m : NodeModule) : String := "npm"

/-- Package returns the package name for NodeModule. -/
def NodeModule.Package (m : NodeModule) : String := m.Name

/-- Revision returns the version for NodeModule. -/
def NodeModule.Revision (m : NodeModule) : String := m.Version

/-- The module under analysis: only the root directory Dir is consumed here. -/
structure Module where
  Dir : String
deriving DecidableEq, Inhabited, Repr

/-- NodeJSBuilder state: resolved commands and versions for node, npm and yarn.
The zero value (all fields empty) is the uninitialized builder. -/
structure NodeJSBuilder where
  NodeCmd : String
  NodeVersion : String
  NpmCmd : String
  NpmVersion : String
  YarnCmd : String
  YarnVersion : String
deriving DecidableEq, Inhabited, Repr

/-- Result of running a subprocess and capturing its output, as in
exec.Command(name, args...).Output(): ok carries stdout, err carries the
spawn or exit error message. -/
inductive ExecResult where
  | ok (output : String)
  | err (msg : String)
deriving DecidableEq, Inhabited, Repr

/-- The process environment as a pure oracle: environment variables (the empty
string models unset, as os.Getenv does) and subprocess execution keyed by
command name, argument list and optional working directory. -/
structure Env where
  getenv : String → String
  exec : String → List String → Option String → ExecResult

/-- Model of the bytes of a manifest file as seen by json.Unmarshal into a
NodeModule: a JSON object with optional name and version string fields, or
malformed JSON. -/
inductive Content where
  | obj (name : Option String) (version : Option String)
  | malformed
deriving DecidableEq, Inhabited, Repr

/-- The filesystem: the paths that exist (os.Stat succeeds exactly on these),
file contents (none models a read error), and the oracle answering
doublestar.Glob on a pattern. -/
structure FS where
  entries : List String
  contents : String → Option Content
  globResult : String → Except String (List String)

/-- os.Stat succeeding (err == nil), as an existence check on the path. -/
def FS.stat (fs : FS) (p : String) : Bool := fs.entries.contains p

/-- ioutil.ReadFile: none models a read error. -/
def FS.readFile (fs : FS) (p : String) : Option Content := fs.contents p

/-- filepath.Join of two components. -/
def filepathJoin (a b : String) : String := a ++ "/" ++ b

/-- strings.TrimSpace: the string with whitespace removed from both ends,
modelled structurally over the character list. -/
def trimSpace (s : String) : String :=
  ⟨((s.data.dropWhile Char.isWhitespace).reverse.dropWhile Char.isWhitespace).reverse⟩

/-- The ordered node runtime candidates: the $NODE_BINARY override first, then
the default names node and nodejs. -/
def nodeCandidates (env : Env) : List String :=
  [env.getenv "NODE_BINARY", "node", "nodejs"]

/-- Outcome of the runtime-candidate loop: the resolved command and version,
exhaustion of all candidates, or the out-of-bounds byte index taken when a
probe succeeds with empty output. -/
inductive NodeResolve where
  | found (cmd version : String)
  | notFound
  | panicked
deriving DecidableEq, Inhabited, Repr

/-- The runtime-candidate loop of Initialize: skip empty candidate strings,
probe each remaining candidate with -v, and accept the first whose probe
succeeds and whose output begins with the marker v (recording the trimmed
output with that first byte dropped). A probe that succeeds with empty output
indexes byte 0 out of bounds: panicked. -/
def resolveNodeList (env : Env) : List String → NodeResolve
  | [] => .notFound
  | c :: rest =>
    if c = "" then resolveNodeList env rest
    else
      match env.exec c ["-v"] none with
      | .ok out =>
        if out = "" then .panicked
        else if out.front = 'v' then .found c ((trimSpace out).drop 1)
        else resolveNodeList env rest
      | .err _ => resolveNodeList env rest

/-- Package-manager resolution in Initialize: the command is the environment
override when set, else the default name; the version is recorded (as the
trimmed output) only when the probe succeeds with at least five bytes of
output, and is otherwise left untouched (none). -/
def resolvePM (env : Env) (envVar defaultCmd : String) : String × Option String :=
  let e := env.getenv envVar
  let cmd := if e = "" then defaultCmd else e
  (cmd,
    match env.exec cmd ["-v"] none with
    | .ok out => if 5 ≤ out.length then some (trimSpace out) else none
    | .err _ => none)

/-- Result of Initialize: the updated builder, an error message, or the
runtime-probe panic. -/
inductive InitResult where
  | ok (b : NodeJSBuilder)
  | error (msg : String)
  | panicked
deriving DecidableEq, Inhabited, Repr

/-- Initialize collects environment data for Nodejs builds: resolve the node
runtime from the candidate list (failing if none resolves), record npm and
yarn commands and versions, and fail if neither package manager has a command
and a version. Fields not assigned keep the incoming builder's values. -/
def Initialize (env : Env) (b0 : NodeJSBuilder) : InitResult :=
  match resolveNodeList env (nodeCandidates env) with
  | .panicked => .panicked
  | .notFound => .error "could not find Nodejs binary (try setting $NODE_BINARY)"
  | .found cmd ver =>
    let npm := resolvePM env "NPM_BINARY" "npm"
    let yarn := resolvePM env "YARN_BINARY" "yarn"
    let b : NodeJSBuilder :=
      { NodeCmd := cmd, NodeVersion := ver,
        NpmCmd := npm.1, NpmVersion := npm.2.getD b0.NpmVersion,
        YarnCmd := yarn.1, YarnVersion := yarn.2.getD b0.YarnVersion }
    if (b.NpmCmd = "" ∨ b.NpmVersion = "") ∧ (b.YarnCmd = "" ∨ b.YarnVersion = "")
    then .error "could not find NPM binary or Yarn binary (try setting $NPM_BINARY or $YARN_BINARY)"
    else .ok b

/-- A subprocess invocation: command name, arguments, optional working
directory. -/
structure Cmd where
  name : String
  args : List String
  dir : Option String
deriving DecidableEq, Inhabited, Repr

/-- The forced recursive deletion of node_modules, run in the module
directory. -/
def rmCmd (m : Module) : Cmd := ⟨"rm", ["-rf", "node_modules"], some m.Dir⟩

/-- The yarn production frozen-lockfile install invocation. -/
def yarnInstallCmd (b : NodeJSBuilder) (m : Module) : Cmd :=
  ⟨b.YarnCmd, ["install", "--production", "--frozen-lockfile"], some m.Dir⟩

/-- The npm production install invocation. -/
def npmInstallCmd (b : NodeJSBuilder) (m : Module) : Cmd :=
  ⟨b.NpmCmd, ["install", "--production"], some m.Dir⟩

/-- Run one Cmd through the environment. -/
def runCmd (env : Env) (c : Cmd) : ExecResult := env.exec c.name c.args c.dir

/-- The install phase of Build: when yarn.lock exists at the module root,
require a yarn command (else the precondition error) and run the yarn
frozen-lockfile production install; otherwise run the npm production install.
Returns the error (none on success) and the invocations issued. -/
def installStep (env : Env) (fs : FS) (b : NodeJSBuilder) (m : Module) :
    Option String × List Cmd :=
  if fs.stat (filepathJoin m.Dir "yarn.lock") then
    if b.YarnCmd = "" then
      (some "Yarn lockfile found but could not find Yarn binary (try setting $YARN_BINARY)", [])
    else
      match runCmd env (yarnInstallCmd b m) with
      | .ok _ => (none, [yarnInstallCmd b m])
      | .err e => (some e, [yarnInstallCmd b m])
  else
    match runCmd env (npmInstallCmd b m) with
    | .ok _ => (none, [npmInstallCmd b m])
    | .err e => (some e, [npmInstallCmd b m])

/-- Build: when force is set, first run the recursive deletion of node_modules
in the module directory and abort on its error; then run exactly one install
through installStep. Returns the error (none on success) and the subprocess
invocations in order. -/
def Build (env : Env) (fs : FS) (b : NodeJSBuilder) (m : Module) (force : Bool) :
    Option String × List Cmd :=
  if force then
    match runCmd env (rmCmd m) with
    | .err e => (some e, [rmCmd m])
    | .ok _ =>
      let s := installStep env fs b m
      (s.1, rmCmd m :: s.2)
  else installStep env fs b m

/-- The recursive glob pattern Dir/**/node_modules/(star)/package.json handed
to doublestar.Glob by Analyze. -/
def manifestGlob (m : Module) : String :=
  filepathJoin (filepathJoin (filepathJoin (filepathJoin m.Dir "**") "node_modules") "*")
    "package.json"

/-- json.Unmarshal of manifest bytes into an existing NodeModule value: fields
present in the object overwrite, absent fields and malformed input leave the
value untouched. -/
def jsonUnmarshal (c : Content) (dst : NodeModule) : NodeModule :=
  match c with
  | .obj n v => ⟨n.getD dst.Name, v.getD dst.Version⟩
  | .malformed => dst

/-- One aggregation task: read the manifest at the path and unmarshal it into
the slot; a read failure leaves the slot untouched (a logged soft-fail). -/
def readModuleSlot (fs : FS) (path : String) (slot : NodeModule) : NodeModule :=
  match fs.readFile path with
  | none => slot
  | some c => jsonUnmarshal c slot

/-- Analyze: glob for nested manifests (aborting on a glob error), fill one
pre-sized zero-initialized slot per path with that path's parse result, wait
for all tasks, then copy every slot in order (no filtering) into the returned
sequence. -/
def Analyze (fs : FS) (_b : NodeJSBuilder) (m : Module) (_x : Bool) :
    Except String (List NodeModule) :=
  match fs.globResult (manifestGlob m) with
  | .error e => .error e
  | .ok nodeModules => .ok (nodeModules.map (fun p => readModuleSlot fs p default))

/-- IsBuilt: true iff node_modules exists at the module root; never an
error. -/
def IsBuilt (fs : FS) (_b : NodeJSBuilder) (m : Module) : Bool × Option String :=
  if fs.stat (filepathJoin m.Dir "node_modules") then (true, none) else (false, none)

/-- IsModule is not implemented for NodeJSBuilder. -/
def IsModule (_b : NodeJSBuilder) (_target : String) : Bool × Option String :=
  (false, some "IsModule is not implemented for NodeJSBuilder")

/-- InferModule is not implemented for NodeJSBuilder. -/
def InferModule (_b : NodeJSBuilder) (_target : String) : Module × Option String :=
  (⟨""⟩, some "InferModule is not implemented for NodeJSBuilder")

/-- One concurrent aggregation task writing its reserved slot: slot i receives
the parse result for path i, whenever the task runs. -/
def taskWrite (fs : FS) (paths : List String) (acc : List NodeModule)
    (i : Fin paths.length) : List NodeModule :=
  acc.set i.val (readModuleSlot fs (paths.get i) default)

/-- Execute the aggregation tasks of Analyze in an arbitrary schedule order
over the pre-sized zero-initialized result container; the synchronization
barrier is the end of the fold. -/
def runTasks (fs : FS) (paths : List String) (order : List (Fin paths.length)) :
    List NodeModule :=
  order.foldl (taskWrite fs paths) (List.replicate paths.length default)

/-- A candidate passes the runtime probe: its -v invocation succeeds with
nonempty output whose first byte is the marker v. -/
def probeAccepts (env : Env) (c : String) : Bool :=
  match env.exec c ["-v"] none with
  | .ok out => if out = "" then false else if out.front = 'v' then true else false
  | .err _ => false

/-- The version string Initialize records for an accepted runtime candidate. -/
def nodeVersionOf (env : Env) (c : String) : String :=
  match env.exec c ["-v"] none with
  | .ok out => (trimSpace out).drop 1
  | .err _ => ""

/-- The version Initialize records for a package manager starting from the
zero builder (empty when the manager is unresolved). -/
def pmVersion (env : Env) (envVar defaultCmd : String) : String :=
  ((resolvePM env envVar defaultCmd).2).getD ""

/-- The zero-valued NodeJSBuilder a fresh analysis run starts from. -/
def emptyBuilder : NodeJSBuilder := ⟨"", "", "", "", "", ""⟩

/-- Module root used by the concrete Analyze example. -/
def mRoot : Module := ⟨"root"⟩

/-- The valid lodash manifest path of the concrete example. -/
def lodashPath : String := "root/node_modules/lodash/package.json"

/-- The malformed left-pad manifest path of the concrete example. -/
def leftPadPath : String := "root/node_modules/left-pad/package.json"

/-- Environment with no overrides and no subprocesses succeeding, for calls
whose outcome does not consult the environment. -/
def envInert : Env :=
  { getenv := fun _ => "",
    exec := fun _ _ _ => .err "exec: executable file not found in PATH" }

/-- Filesystem of the concrete example: one valid manifest (lodash 4.17.0) and
one malformed manifest (left-pad), both discovered by the glob over the root
module. -/
def fsExample : FS :=
  { entries := [lodashPath, leftPadPath],
    contents := fun p =>
      if p = lodashPath then some (.obj (some "lodash") (some "4.17.0"))
      else if p = leftPadPath then some .malformed
      else none,
    globResult := fun p =>
      if p = manifestGlob mRoot then .ok [lodashPath, leftPadPath] else .ok [] }

/-- Environment in which node and npm resolve but the yarn binary is missing:
every yarn invocation fails to spawn. -/
def envNoYarn : Env :=
  { getenv := fun _ => "",
    exec := fun name args _dir =>
      if name = "node" ∧ args = ["-v"] then .ok "v8.11.3"
      else if name = "npm" ∧ args = ["-v"] then .ok "5.6.0"
      else .err "exec: yarn: executable file not found in PATH" }

/-- The module root proj. -/
def mProj : Module := ⟨"proj"⟩

/-- Filesystem with a yarn.lock at the proj module root and nothing else. -/
def fsYarnLock : FS :=
  { entries := [filepathJoin mProj.Dir "yarn.lock"],
    contents := fun _ => none,
    globResult := fun _ => .ok [] }

/-- The builder Initialize produces in envNoYarn: yarn's version probe failed,
yet YarnCmd holds the default name yarn. -/
def bNoYarn : NodeJSBuilder := ⟨"node", "8.11.3", "npm", "5.6.0", "yarn", ""⟩

/-- A filesystem whose module root contains a node_modules entry (plus a
manifest inside it). -/
def fsBuilt : FS :=
  { entries := [filepathJoin mProj.Dir "node_modules", lodashPath],
    contents := fun _ => none,
    globResult := fun _ => .ok [] }

/-- Same entries as fsBuilt, different contents and glob behavior. -/
def fsBuiltOther : FS :=
  { entries := [filepathJoin mProj.Dir "node_modules", lodashPath],
    contents := fun _ => some .malformed,
    globResult := fun _ => .error "glob: bad pattern" }

/-- Environment whose node probe succeeds with empty output. -/
def envEmptyOut : Env :=
  { getenv := fun _ => "",
    exec := fun name args _dir =>
      if name = "node" ∧ args = ["-v"] then .ok "" else .err "exec: not found" }

/-- Environment with a valid $NODE_BINARY override and an also-valid default
node, exhibiting override precedence. -/
def envOverride : Env :=
  { getenv := fun v => if v = "NODE_BINARY" then "mynode" else "",
    exec := fun name args _dir =>
      if name = "mynode" ∧ args = ["-v"] then .ok "v9.2.0"
      else if name = "node" ∧ args = ["-v"] then .ok "v8.0.0"
      else .err "exec: not found" }

/-- The find predicate for a usable runtime candidate: nonempty and accepted
by its version probe. -/
def usableCandidate (env : Env) (c : String) : Bool :=
  !(c == "") && probeAccepts env c

/-- The manifest paths the example glob discovers, in glob order. -/
def examplePaths : List String := [lodashPath, leftPadPath]

/-- One complete schedule of the two example tasks: second task first. -/
def exOrder : List (Fin examplePaths.length) := [⟨1, by decide⟩, ⟨0, by decide⟩]

/-- The other complete schedule of the two example tasks: in slot order. -/
def exOrderSwapped : List (Fin examplePaths.length) := [⟨0, by decide⟩, ⟨1, by decide⟩]

/-- The command resolvePM records is never empty when the default name is
nonempty. -/
theorem resolvePM_fst_ne (env : Env) (envVar defaultCmd : String)
    (h : defaultCmd ≠ "") : (resolvePM env envVar defaultCmd).1 ≠ "" := by
  unfold resolvePM
  by_cases he : env.getenv envVar = ""
  · simp [he]
    exact h
  · simp [he]

/-- Initialize from the zero builder, when the runtime loop found a candidate:
it errors iff neither package manager recorded a version, and otherwise
returns the fully populated builder. -/
theorem Initialize_found (env : Env) (c v : String)
    (hr : resolveNodeList env (nodeCandidates env) = .found c v) :
    Initialize env emptyBuilder =
      if pmVersion env "NPM_BINARY" "npm" = "" ∧ pmVersion env "YARN_BINARY" "yarn" = ""
      then .error "could not find NPM binary or Yarn binary (try setting $NPM_BINARY or $YARN_BINARY)"
      else .ok ⟨c, v, (resolvePM env "NPM_BINARY" "npm").1, pmVersion env "NPM_BINARY" "npm",
          (resolvePM env "YARN_BINARY" "yarn").1, pmVersion env "YARN_BINARY" "yarn"⟩ := by
  have hnpm := resolvePM_fst_ne env "NPM_BINARY" "npm" (by decide)
  have hyarn := resolvePM_fst_ne env "YARN_BINARY" "yarn" (by decide)
  simp only [Initialize, hr, pmVersion, emptyBuilder]
  by_cases h1 : ((resolvePM env "NPM_BINARY" "npm").2).getD "" = "" <;>
    by_cases h2 : ((resolvePM env "YARN_BINARY" "yarn").2).getD "" = "" <;>
      simp [h1, h2, hnpm, hyarn]

/-- C3: Initialize (from the zero builder) returns an error iff the runtime
loop resolves no candidate or neither package manager records a version, and
succeeds whenever the runtime resolves and exactly one of the two package
managers records a version. -/
theorem Initialize_error_iff (env : Env)
    (hs : resolveNodeList env (nodeCandidates env) ≠ .panicked) :
    ((∃ msg, Initialize env emptyBuilder = .error msg) ↔
      (resolveNodeList env (nodeCandidates env) = .notFound ∨
        (pmVersion env "NPM_BINARY" "npm" = "" ∧ pmVersion env "YARN_BINARY" "yarn" = ""))) ∧
    ((∃ c v, resolveNodeList env (nodeCandidates env) = .found c v) →
      ((pmVersion env "NPM_BINARY" "npm" ≠ "" ∧ pmVersion env "YARN_BINARY" "yarn" = "") ∨
        (pmVersion env "NPM_BINARY" "npm" = "" ∧ pmVersion env "YARN_BINARY" "yarn" ≠ "")) →
      ∃ b, Initialize env emptyBuilder = .ok b) := by
  cases hr : resolveNodeList env (nodeCandidates env) with
  | panicked => exact absurd hr hs
  | notFound =>
    constructor
    · simp [Initialize, hr]
    · rintro ⟨c, v, hcv⟩
      cases hcv
  | found c v =>
    have hf := Initialize_found env c v hr
    constructor
    · rw [hf]
      by_cases h12 : pmVersion env "NPM_BINARY" "npm" = "" ∧
          pmVersion env "YARN_BINARY" "yarn" = ""
      · simp [h12, hr]
      · simp [h12, hr]
    · rintro - h
      rw [hf]
      have hne : ¬ (pmVersion env "NPM_BINARY" "npm" = "" ∧
          pmVersion env "YARN_BINARY" "yarn" = "") := by
        rcases h with ⟨h1, h2⟩ | ⟨h1, h2⟩ <;> tauto
      rw [if_neg hne]
      exact ⟨_, rfl⟩

/-- Witness for C3 at the concrete environment envNoYarn (node and npm
resolve, yarn does not). -/
theorem Initialize_error_iff_witness :
    ((∃ msg, Initialize envNoYarn emptyBuilder = .error msg) ↔
      (resolveNodeList envNoYarn (nodeCandidates envNoYarn) = .notFound ∨
        (pmVersion envNoYarn "NPM_BINARY" "npm" = "" ∧
          pmVersion envNoYarn "YARN_BINARY" "yarn" = ""))) ∧
    ((∃ c v, resolveNodeList envNoYarn (nodeCandidates envNoYarn) = .found c v) →
      ((pmVersion envNoYarn "NPM_BINARY" "npm" ≠ "" ∧
          pmVersion envNoYarn "YARN_BINARY" "yarn" = "") ∨
        (pmVersion envNoYarn "NPM_BINARY" "npm" = "" ∧
          pmVersion envNoYarn "YARN_BINARY" "yarn" ≠ "")) →
      ∃ b, Initialize envNoYarn emptyBuilder = .ok b) :=
  Initialize_error_iff envNoYarn (by decide)

/-- The loop returns the first usable candidate, with its recorded version. -/
theorem resolveNodeList_found_of_find (env : Env) (cs : List String)
    (hsafe : ∀ c ∈ cs, env.exec c ["-v"] none ≠ .ok "") (c : String)
    (hf : cs.find? (usableCandidate env) = some c) :
    resolveNodeList env cs = .found c (nodeVersionOf env c) := by
  induction cs with
  | nil => cases hf
  | cons a rest ih =>
    have hsafeRest : ∀ x ∈ rest, env.exec x ["-v"] none ≠ .ok "" :=
      fun x hx => hsafe x (List.mem_cons_of_mem a hx)
    by_cases hua : usableCandidate env a = true
    · rw [List.find?_cons_of_pos _ hua] at hf
      injection hf with hac
      subst hac
      simp only [usableCandidate, Bool.and_eq_true, Bool.not_eq_true',
        beq_eq_false_iff_ne] at hua
      obtain ⟨hane, hpa⟩ := hua
      simp only [resolveNodeList, if_neg hane]
      cases hexec : env.exec a ["-v"] none with
      | ok out =>
        simp only [probeAccepts, hexec] at hpa
        by_cases hout : out = ""
        · simp [hout] at hpa
        · by_cases hfront : out.front = 'v'
          · simp [hout, hfront, nodeVersionOf, hexec]
          · simp [hout, hfront] at hpa
      | err msg => simp [probeAccepts, hexec] at hpa
    · rw [List.find?_cons_of_neg _ hua] at hf
      have htail := ih hsafeRest hf
      by_cases ha : a = ""
      · simpa [resolveNodeList, ha] using htail
      · simp only [usableCandidate, Bool.and_eq_true, Bool.not_eq_true',
          beq_eq_false_iff_ne, not_and] at hua
        have hpa : ¬ probeAccepts env a = true := hua ha
        simp only [resolveNodeList, if_neg ha]
        cases hexec : env.exec a ["-v"] none with
        | ok out =>
          have hout : out ≠ "" := by
            intro h
            exact hsafe a (List.mem_cons_self a rest) (h ▸ hexec)
          have hfront : ¬ out.front = 'v' := by
            intro h
            exact hpa (by simp [probeAccepts, hexec, hout, h])
          simpa [hout, hfront] using htail
        | err msg => exact htail

/-- When no candidate is usable, the loop exhausts all of them. -/
theorem resolveNodeList_notFound_of_find_none (env : Env) (cs : List String)
    (hsafe : ∀ c ∈ cs, env.exec c ["-v"] none ≠ .ok "")
    (hf : cs.find? (usableCandidate env) = none) :
    resolveNodeList env cs = .notFound := by
  induction cs with
  | nil => rfl
  | cons a rest ih =>
    have hcons := List.find?_eq_none.mp hf
    have hua : ¬ usableCandidate env a = true := hcons a (List.mem_cons_self a rest)
    have hrest : rest.find? (usableCandidate env) = none :=
      List.find?_eq_none.mpr fun x hx => hcons x (List.mem_cons_of_mem a hx)
    have hsafeRest : ∀ x ∈ rest, env.exec x ["-v"] none ≠ .ok "" :=
      fun x hx => hsafe x (List.mem_cons_of_mem a hx)
    have htail := ih hsafeRest hrest
    by_cases ha : a = ""
    · simpa [resolveNodeList, ha] using htail
    · simp only [usableCandidate, Bool.and_eq_true, Bool.not_eq_true',
        beq_eq_false_iff_ne, not_and] at hua
      have hpa : ¬ probeAccepts env a = true := hua ha
      simp only [resolveNodeList, if_neg ha]
      cases hexec : env.exec a ["-v"] none with
      | ok out =>
        have hout : out ≠ "" := by
          intro h
          exact hsafe a (List.mem_cons_self a rest) (h ▸ hexec)
        have hfront : ¬ out.front = 'v' := by
          intro h
          exact hpa (by simp [probeAccepts, hexec, hout, h])
        simpa [hout, hfront] using htail
      | err msg => exact htail

/-- Empty candidate strings are skipped without consuming an attempt: the loop
agrees with itself on the list with empty candidates filtered away. -/
theorem resolveNodeList_filter_nonempty (env : Env) (cs : List String) :
    resolveNodeList env cs = resolveNodeList env (cs.filter (fun x => !(x == ""))) := by
  induction cs with
  | nil => rfl
  | cons a rest ih =>
    by_cases ha : a = ""
    · subst ha
      simpa [resolveNodeList, List.filter_cons] using ih
    · have hb : (!(a == "")) = true := by simp [ha]
      rw [List.filter_cons, if_pos hb]
      simp only [resolveNodeList, if_neg ha]
      cases hexec : env.exec a ["-v"] none with
      | ok out =>
        by_cases hout : out = ""
        · simp [hout]
        · by_cases hfront : out.front = 'v'
          · simp [hout, hfront]
          · simpa [hout, hfront] using ih
      | err msg => exact ih

/-- C5: the runtime-candidate loop returns the first candidate, in priority
order, whose version probe succeeds with v-prefixed output; empty candidate
strings are skipped without consuming an attempt, and a set and valid
$NODE_BINARY override always wins over the default names. -/
theorem Locator_first_valid_candidate (env : Env) (cs : List String)
    (hsafe : ∀ c ∈ cs, env.exec c ["-v"] none ≠ .ok "")
    (hsafeDef : ∀ c ∈ nodeCandidates env, env.exec c ["-v"] none ≠ .ok "") :
    (∀ c, cs.find? (usableCandidate env) = some c →
      resolveNodeList env cs = .found c (nodeVersionOf env c)) ∧
    (cs.find? (usableCandidate env) = none → resolveNodeList env cs = .notFound) ∧
    resolveNodeList env cs = resolveNodeList env (cs.filter (fun x => !(x == ""))) ∧
    (env.getenv "NODE_BINARY" ≠ "" → probeAccepts env (env.getenv "NODE_BINARY") = true →
      resolveNodeList env (nodeCandidates env) =
        .found (env.getenv "NODE_BINARY") (nodeVersionOf env (env.getenv "NODE_BINARY"))) ∧
    (∀ c v b0 b, resolveNodeList env (nodeCandidates env) = .found c v →
      Initialize env b0 = .ok b → b.NodeCmd = c ∧ b.NodeVersion = v) := by
  refine ⟨fun c hf => resolveNodeList_found_of_find env cs hsafe c hf,
    fun hf => resolveNodeList_notFound_of_find_none env cs hsafe hf,
    resolveNodeList_filter_nonempty env cs, fun hg hp => ?_, ?_⟩
  · refine resolveNodeList_found_of_find env _ hsafeDef _ ?_
    unfold nodeCandidates
    exact List.find?_cons_of_pos _ (by simp [usableCandidate, hg, hp])
  · rintro c v b0 b hr hb
    simp only [Initialize, hr] at hb
    split at hb
    · cases hb
    · cases hb
      exact ⟨rfl, rfl⟩

/-- Witness for C5 at the concrete environment envOverride, whose override and
default candidates are both valid. -/
theorem Locator_first_valid_candidate_witness :
    (∀ c, (nodeCandidates envOverride).find? (usableCandidate envOverride) = some c →
      resolveNodeList envOverride (nodeCandidates envOverride) =
        .found c (nodeVersionOf envOverride c)) ∧
    ((nodeCandidates envOverride).find? (usableCandidate envOverride) = none →
      resolveNodeList envOverride (nodeCandidates envOverride) = .notFound) ∧
    resolveNodeList envOverride (nodeCandidates envOverride) =
      resolveNodeList envOverride ((nodeCandidates envOverride).filter (fun x => !(x == ""))) ∧
    (envOverride.getenv "NODE_BINARY" ≠ "" →
      probeAccepts envOverride (envOverride.getenv "NODE_BINARY") = true →
      resolveNodeList envOverride (nodeCandidates envOverride) =
        .found (envOverride.getenv "NODE_BINARY")
          (nodeVersionOf envOverride (envOverride.getenv "NODE_BINARY"))) ∧
    (∀ c v b0 b, resolveNodeList envOverride (nodeCandidates envOverride) = .found c v →
      Initialize envOverride b0 = .ok b → b.NodeCmd = c ∧ b.NodeVersion = v) :=
  Locator_first_valid_candidate envOverride (nodeCandidates envOverride)
    (by decide) (by decide)

/-- C9: for every builder state and target string, IsModule returns false with
the not-implemented error and InferModule returns the zero Module with the
not-implemented error; neither ever succeeds. -/
theorem IsModule_InferModule_not_implemented (b : NodeJSBuilder) (target : String) :
    IsModule b target = (false, some "IsModule is not implemented for NodeJSBuilder") ∧
    InferModule b target = (⟨""⟩, some "InferModule is not implemented for NodeJSBuilder") ∧
    (IsModule b target).2 ≠ none ∧ (InferModule b target).2 ≠ none := by
  refine ⟨rfl, rfl, ?_, ?_⟩ <;> simp [IsModule, InferModule]

/-- C6: IsBuilt is purely structural: its boolean is true iff an entry named
node_modules exists at the module root, its error is always none, and the
result depends only on which paths exist, not on any file contents or glob
behavior. -/
theorem IsBuilt_structural (fs fs' : FS) (b b' : NodeJSBuilder) (m : Module) :
    ((IsBuilt fs b m).1 = true ↔ filepathJoin m.Dir "node_modules" ∈ fs.entries) ∧
    (IsBuilt fs b m).2 = none ∧
    (fs.entries = fs'.entries → IsBuilt fs b m = IsBuilt fs' b' m) := by
  refine ⟨?_, ?_, ?_⟩
  · unfold IsBuilt FS.stat
    split <;> rename_i h <;> simp_all [List.elem_iff, List.contains]
  · unfold IsBuilt
    split <;> rfl
  · intro h
    unfold IsBuilt FS.stat
    rw [h]

/-- C7: Analyze returns an error iff the glob over the nested-manifest pattern
returns that error; a successful glob with zero matches yields the empty
dependency sequence and no error. -/
theorem Analyze_error_iff_glob (fs : FS) (b : NodeJSBuilder) (m : Module) (x : Bool) :
    (∀ e, Analyze fs b m x = .error e ↔ fs.globResult (manifestGlob m) = .error e) ∧
    (fs.globResult (manifestGlob m) = .ok [] → Analyze fs b m x = .ok []) := by
  unfold Analyze
  cases hg : fs.globResult (manifestGlob m) with
  | error e => simp
  | ok paths => simp

/-- C4: with force set, Build issues the recursive node_modules deletion as its
first subprocess invocation, and when that deletion fails Build returns exactly
the deletion error having run no install subprocess. -/
theorem Build_force_deletes_first (env : Env) (fs : FS) (b : NodeJSBuilder)
    (m : Module) :
    ((Build env fs b m true).2.head? = some (rmCmd m)) ∧
    (∀ e, env.exec "rm" ["-rf", "node_modules"] (some m.Dir) = .err e →
      Build env fs b m true = (some e, [rmCmd m])) := by
  unfold Build runCmd
  cases hexec : env.exec (rmCmd m).name (rmCmd m).args (rmCmd m).dir with
  | err e =>
    refine ⟨rfl, fun e' he' => ?_⟩
    have : (rmCmd m).name = "rm" ∧ (rmCmd m).args = ["-rf", "node_modules"] ∧
        (rmCmd m).dir = some m.Dir := ⟨rfl, rfl, rfl⟩
    rw [this.1, this.2.1, this.2.2, he'] at hexec
    cases hexec
    rfl
  | ok out =>
    refine ⟨rfl, fun e' he' => ?_⟩
    have : (rmCmd m).name = "rm" ∧ (rmCmd m).args = ["-rf", "node_modules"] ∧
        (rmCmd m).dir = some m.Dir := ⟨rfl, rfl, rfl⟩
    rw [this.1, this.2.1, this.2.2, he'] at hexec
    cases hexec

/-- C1 counterexample: at the spec's own example input (one valid lodash
manifest and one malformed left-pad manifest, K = 1, M = 1) Analyze returns
two entries, the zero-valued placeholder included: there is no filter pass
after the barrier, so the claimed 1-entry result is false. -/
theorem Analyze_no_filter_counterexample :
    Analyze fsExample emptyBuilder mRoot true =
      .ok [⟨"lodash", "4.17.0"⟩, ⟨"", ""⟩] ∧
    ¬ (∃ ds, Analyze fsExample emptyBuilder mRoot true = .ok ds ∧ ds.length = 1) := by
  refine ⟨rfl, ?_⟩
  rintro ⟨ds, hds, hlen⟩
  have h1 : Analyze fsExample emptyBuilder mRoot true =
      .ok [⟨"lodash", "4.17.0"⟩, ⟨"", ""⟩] := rfl
  rw [h1] at hds
  cases hds
  simp at hlen

/-- C1 amended: when the glob succeeds with a path list, Analyze returns
exactly one entry per discovered manifest path (K + M entries), slot i holding
the unmarshal result for path i; failed reads and parses leave the zero-valued
NodeModule in the slot and no filter pass removes it. -/
theorem Analyze_one_slot_per_manifest (fs : FS) (b : NodeJSBuilder) (m : Module)
    (x : Bool) (paths : List String)
    (h : fs.globResult (manifestGlob m) = .ok paths) :
    Analyze fs b m x = .ok (paths.map fun p => readModuleSlot fs p default) ∧
    (∀ ds, Analyze fs b m x = .ok ds → ds.length = paths.length) := by
  unfold Analyze
  rw [h]
  refine ⟨rfl, fun ds hds => ?_⟩
  cases hds
  simp

/-- Witness for the amended C1 theorem at the concrete example filesystem. -/
theorem Analyze_one_slot_per_manifest_witness :
    Analyze fsExample emptyBuilder mRoot true =
      .ok ([lodashPath, leftPadPath].map fun p => readModuleSlot fsExample p default) ∧
    (∀ ds, Analyze fsExample emptyBuilder mRoot true = .ok ds →
      ds.length = [lodashPath, leftPadPath].length) :=
  Analyze_one_slot_per_manifest fsExample emptyBuilder mRoot true
    [lodashPath, leftPadPath] rfl

/-- C2 (code bug): after Initialize in an environment where the yarn version
probe fails, YarnCmd holds the default name yarn, so Build on a module whose
root holds yarn.lock does not return the lockfile-but-no-binary precondition
error: it invokes the yarn frozen-lockfile install and surfaces that
subprocess's spawn error, and never invokes npm. -/
theorem Build_missing_yarn_toolchain_bug :
    Initialize envNoYarn emptyBuilder = .ok bNoYarn ∧
    bNoYarn.YarnVersion = "" ∧
    Build envNoYarn fsYarnLock bNoYarn mProj false =
      (some "exec: yarn: executable file not found in PATH",
       [⟨"yarn", ["install", "--production", "--frozen-lockfile"], some "proj"⟩]) ∧
    (∀ cmd ∈ (Build envNoYarn fsYarnLock bNoYarn mProj false).2, cmd.name ≠ "npm") ∧
    (Build envNoYarn fsYarnLock bNoYarn mProj false).1 ≠
      some "Yarn lockfile found but could not find Yarn binary (try setting $YARN_BINARY)" := by
  refine ⟨by decide, rfl, by decide, by decide, by decide⟩

/-- C10: a runtime candidate that is nonempty and whose version probe succeeds
with empty output makes the unguarded first-byte index out of bounds: the
candidate loop ends in the panic outcome, and Initialize propagates it. -/
theorem Initialize_empty_probe_output_panics (env : Env) (b0 : NodeJSBuilder)
    (c : String) (rest : List String)
    (hc : c ≠ "") (hout : env.exec c ["-v"] none = .ok "") :
    resolveNodeList env (c :: rest) = .panicked ∧
    (resolveNodeList env (nodeCandidates env) = .panicked →
      Initialize env b0 = .panicked) := by
  constructor
  · simp [resolveNodeList, hc, hout]
  · intro h
    simp [Initialize, h]

/-- Witness for C10: in envEmptyOut the node candidate answers its probe with
empty output, so the loop and Initialize panic. -/
theorem Initialize_empty_probe_output_panics_witness :
    resolveNodeList envEmptyOut ("node" :: ["nodejs"]) = .panicked ∧
    (resolveNodeList envEmptyOut (nodeCandidates envEmptyOut) = .panicked →
      Initialize envEmptyOut emptyBuilder = .panicked) :=
  Initialize_empty_probe_output_panics envEmptyOut emptyBuilder "node" ["nodejs"]
    (by decide) (by decide)

/-- Running tasks preserves the length of the result container. -/
theorem runTasks_go_length (fs : FS) (paths : List String)
    (order : List (Fin paths.length)) (acc : List NodeModule) :
    (order.foldl (taskWrite fs paths) acc).length = acc.length := by
  induction order generalizing acc with
  | nil => rfl
  | cons i rest ih =>
    rw [List.foldl_cons, ih]
    simp [taskWrite]

/-- getD of a set at the written index. -/
theorem getD_set_self (l : List NodeModule) (i : Nat) (v : NodeModule)
    (h : i < l.length) : (l.set i v).getD i default = v := by
  rw [List.getD_eq_getElem?_getD, List.getElem?_set_self h]
  rfl

/-- getD of a set at a different index. -/
theorem getD_set_ne (l : List NodeModule) (i j : Nat) (v : NodeModule)
    (h : i ≠ j) : (l.set i v).getD j default = l.getD j default := by
  rw [List.getD_eq_getElem?_getD, List.getElem?_set_ne h, ← List.getD_eq_getElem?_getD]

/-- After executing any subset of the tasks, slot j holds the parse result for
path j when some executed task owned slot j, and the initial slot value
otherwise: each task's write depends only on its own path. -/
theorem runTasks_go_getD (fs : FS) (paths : List String)
    (order : List (Fin paths.length)) (acc : List NodeModule)
    (hlen : acc.length = paths.length) (j : Fin paths.length) :
    (order.foldl (taskWrite fs paths) acc).getD j.val default =
      if j ∈ order then readModuleSlot fs (paths.get j) default
      else acc.getD j.val default := by
  induction order generalizing acc with
  | nil => simp
  | cons i rest ih =>
    rw [List.foldl_cons]
    have hlen' : (taskWrite fs paths acc i).length = paths.length := by
      simp [taskWrite, hlen]
    rw [ih (taskWrite fs paths acc i) hlen']
    by_cases hjr : j ∈ rest
    · simp [hjr]
    · by_cases hij : j = i
      · subst hij
        rw [if_neg hjr, if_pos (List.mem_cons_self j rest)]
        unfold taskWrite
        exact getD_set_self acc j.val _ (by rw [hlen]; exact j.isLt)
      · have hvij : i.val ≠ j.val := fun h => hij (Fin.ext h.symm)
        have hnc : j ∉ i :: rest := by simp [List.mem_cons, hij, hjr]
        rw [if_neg hjr, if_neg hnc]
        unfold taskWrite
        exact getD_set_ne acc i.val j.val _ hvij

/-- The result container keeps one slot per discovered path. -/
theorem runTasks_length (fs : FS) (paths : List String)
    (order : List (Fin paths.length)) :
    (runTasks fs paths order).length = paths.length := by
  unfold runTasks
  rw [runTasks_go_length]
  exact List.length_replicate _ _

/-- Slot j of the aggregate holds exactly the parse result for path j once
task j has run, whatever the schedule around it. -/
theorem runTasks_getD (fs : FS) (paths : List String)
    (order : List (Fin paths.length)) (j : Fin paths.length) (hj : j ∈ order) :
    (runTasks fs paths order).getD j.val default =
      readModuleSlot fs (paths.get j) default := by
  unfold runTasks
  rw [runTasks_go_getD fs paths order _ (List.length_replicate _ _) j, if_pos hj]

/-- Any complete schedule produces the slot-per-path aggregate. -/
theorem runTasks_complete (fs : FS) (paths : List String)
    (order : List (Fin paths.length))
    (hperm : order.Perm (List.finRange paths.length)) :
    runTasks fs paths order = paths.map (fun p => readModuleSlot fs p default) := by
  apply List.ext_getElem
  · rw [runTasks_length, List.length_map]
  · intro n h1 h2
    have hn : n < paths.length := by
      rw [runTasks_length] at h1
      exact h1
    have hmem : (⟨n, hn⟩ : Fin paths.length) ∈ order :=
      hperm.mem_iff.mpr (List.mem_finRange _)
    have hj := runTasks_getD fs paths order ⟨n, hn⟩ hmem
    rw [List.getD_eq_getElem?_getD, List.getElem?_eq_getElem h1, Option.getD_some] at hj
    rw [hj, List.getElem_map]
    rfl

/-- C8: the concurrent manifest aggregation is deterministic with respect to
scheduling: slot i always holds the parse result for path i, any two complete
schedules (orders in which the tasks reach the barrier) produce the same
aggregate, and the aggregate of a completed schedule is exactly the sequence
Analyze returns. -/
theorem Analyze_schedule_deterministic (fs : FS) (b : NodeJSBuilder) (m : Module)
    (x : Bool) (paths : List String) (order order2 : List (Fin paths.length))
    (hg : fs.globResult (manifestGlob m) = .ok paths)
    (h1 : order.Perm (List.finRange paths.length))
    (h2 : order2.Perm (List.finRange paths.length)) :
    (∀ i : Fin paths.length,
      (runTasks fs paths order).getD i.val default =
        readModuleSlot fs (paths.get i) default) ∧
    runTasks fs paths order = runTasks fs paths order2 ∧
    Analyze fs b m x = .ok (runTasks fs paths order) := by
  have e1 := runTasks_complete fs paths order h1
  have e2 := runTasks_complete fs paths order2 h2
  refine ⟨fun i => runTasks_getD fs paths order i (h1.mem_iff.mpr (List.mem_finRange _)),
    e1.trans e2.symm, ?_⟩
  unfold Analyze
  rw [hg, e1]

/-- Witness for C8 at the concrete example filesystem with its two opposite
complete schedules. -/
theorem Analyze_schedule_deterministic_witness :
    (∀ i : Fin examplePaths.length,
      (runTasks fsExample examplePaths exOrder).getD i.val default =
        readModuleSlot fsExample (examplePaths.get i) default) ∧
    runTasks fsExample examplePaths exOrder = runTasks fsExample examplePaths exOrderSwapped ∧
    Analyze fsExample emptyBuilder mRoot true = .ok (runTasks fsExample examplePaths exOrder) :=
  Analyze_schedule_deterministic fsExample emptyBuilder mRoot true examplePaths
    exOrder exOrderSwapped rfl (by decide) (by decide)

end Fossa
